import Mathlib

/-!
Shallow embedding of the Btaskee real-time quiz coordination layer
(`models`, `services.QuizService`, the WebSocket client registry) and
verification of its specified properties.

Modelling conventions:
* Go `int` is modelled as `Int` (scores and points stay far from overflow),
  timestamps (`time.Time`) as `Nat`.
* A Go map is modelled as an association list whose list order stands for the
  map's (nondeterministic) iteration order; a map write replaces the entry
  with the matching key if present and appends otherwise.
* Pointer mutation of a found entry is modelled by rebuilding the containing
  list with the updated entry substituted at every position holding that key.
* The Redis side effects (saves, publishes) and the hub broadcasts are
  recorded as an explicit effect list where a claim needs them.
-/

namespace BtaskeeQuiz

/-- Models `models.Answer`: question id, chosen option index, correctness
flag, points awarded, timestamp. -/
structure Answer where
  questionID : String
  answer : Int
  correct : Bool
  points : Int
  answeredAt : Nat
deriving Repr, DecidableEq

/-- Models `models.Question`. -/
structure Question where
  id : String
  text : String
  options : List String
  correct : Int
  points : Int
  category : String
deriving Repr, DecidableEq

/-- Models `models.User`. -/
structure User where
  id : String
  name : String
  score : Int
  answers : List Answer
  joinedAt : Nat
deriving Repr, DecidableEq

/-- Models `models.QuizStatus` (waiting / active / ended). -/
inductive QuizStatus where
  | waiting
  | active
  | ended
deriving Repr, DecidableEq

/-- Models `models.Quiz`.  The `Participants` map (user id to `*User`) is an
association list of users keyed by `User.id`; list order stands for the map's
iteration order. -/
structure Quiz where
  id : String
  title : String
  questions : List Question
  participants : List User
  status : QuizStatus
  createdAt : Nat
  startedAt : Option Nat
  endedAt : Option Nat
deriving Repr, DecidableEq

/-- Models `models.LeaderboardEntry`. -/
structure LeaderboardEntry where
  userID : String
  name : String
  score : Int
  position : Nat
deriving Repr, DecidableEq

/-- Models `User.HasAnswered`: true iff some recorded answer carries this
question id. -/
def User.hasAnswered (u : User) (questionID : String) : Bool :=
  u.answers.any fun a => a.questionID == questionID

/-- Models `User.AddAnswer`: append the answer; when it is correct, add its
points to the stored score. -/
def User.addAnswer (u : User) (a : Answer) : User :=
  { u with
    answers := u.answers ++ [a]
    score := if a.correct then u.score + a.points else u.score }

/-- Models `User.GetScore`. -/
def User.getScore (u : User) : Int := u.score

/-- One run of the inner loop of the pairwise-swap sort in
`Quiz.GetLeaderboard` for a fixed outer index `i`: `c` is the current
occupant of slot `i`, the list holds slots `i+1 ..`; whenever the occupant's
score is strictly below a later entry's score the two are swapped.  Returns
the final occupant of slot `i` together with the final contents of the later
slots. -/
def exchangePass (c : LeaderboardEntry) :
    List LeaderboardEntry → LeaderboardEntry × List LeaderboardEntry
  | [] => (c, [])
  | x :: xs =>
    if c.score < x.score then
      let p := exchangePass x xs
      (p.1, c :: p.2)
    else
      let p := exchangePass c xs
      (p.1, x :: p.2)

/-- The outer loop of the pairwise-swap sort of `Quiz.GetLeaderboard`.  The
Go loop runs one `exchangePass` per slot; the fuel argument counts the
remaining slots and is instantiated with the list length (the pass keeps the
length of the remainder, so the fuel is never exhausted early). -/
def exchangeSortAux : Nat → List LeaderboardEntry → List LeaderboardEntry
  | 0, _ => []
  | _ + 1, [] => []
  | n + 1, x :: xs => (exchangePass x xs).1 :: exchangeSortAux n (exchangePass x xs).2

/-- Models the double loop of `Quiz.GetLeaderboard` that sorts `entries` by
score descending. -/
def exchangeSort (l : List LeaderboardEntry) : List LeaderboardEntry :=
  exchangeSortAux l.length l

/-- Models the position-assigning loop of `Quiz.GetLeaderboard`
(`entries[i].Position = i + 1`); `n` is the position given to the first
entry of the list. -/
def addPositionsFrom (n : Nat) : List LeaderboardEntry → List LeaderboardEntry
  | [] => []
  | e :: es => { e with position := n } :: addPositionsFrom (n + 1) es

/-- Models `Quiz.GetLeaderboard`: build one entry per participant in map
iteration order (`Position` is the Go zero value before assignment), sort by
score descending with the pairwise-swap sort, then assign positions `1..N`. -/
def Quiz.getLeaderboard (q : Quiz) : List LeaderboardEntry :=
  addPositionsFrom 1
    (exchangeSort (q.participants.map fun u =>
      { userID := u.id, name := u.name, score := u.score, position := 0 }))

/-- Models `Quiz.AddParticipant`, a Go map write keyed by user id. -/
def Quiz.addParticipant (q : Quiz) (user : User) : Quiz :=
  if q.participants.any fun u => u.id == user.id then
    { q with participants := q.participants.map fun u =>
        if u.id == user.id then user else u }
  else
    { q with participants := q.participants ++ [user] }

/-- Errors returned by the service operations, one constructor per
`fmt.Errorf` site in `quiz_service.go`. -/
inductive SubmitError where
  | quizNotFound
  | userNotFound
  | alreadyAnswered
  | questionNotFound
deriving Repr, DecidableEq

/-- Side effects of the service operations that follow a successful state
mutation: Redis writes, hub broadcasts and Redis pub/sub publications. -/
inductive Effect where
  | saveQuiz (quizID : String)
  | saveUser (userID : String)
  | saveLeaderboard (quizID : String)
  | broadcast (quizID : String) (msgType : String)
  | publish (channel : String) (msgType : String)
deriving Repr, DecidableEq

/-- Models the lookup of `QuizService.GetQuiz`: the registry holds every quiz
known to the instance (memory merged with what Redis would return); absence is
the "quiz not found" error. -/
def findQuiz (quizzes : List Quiz) (quizID : String) : Option Quiz :=
  quizzes.find? fun q => q.id == quizID

/-- Models the map lookup `quiz.Participants[userID]`. -/
def findUser (q : Quiz) (userID : String) : Option User :=
  q.participants.find? fun u => u.id == userID

/-- Models the question-search loop of `QuizService.SubmitAnswer` (first
question whose id matches, `break` on hit). -/
def findQuestion (q : Quiz) (questionID : String) : Option Question :=
  q.questions.find? fun qn => qn.id == questionID

deriving instance DecidableEq for Except

/-- Result of `QuizService.SubmitAnswer`: the quiz registry after the call,
the side effects performed, and the returned value or error.  The error
branches of the Go function return before any mutation, broadcast or save, so
they carry the incoming registry and no effects. -/
structure SubmitResult where
  quizzes : List Quiz
  effects : List Effect
  result : Except SubmitError Answer
deriving Repr, DecidableEq

/-- Effects performed by a successful `SubmitAnswer`: save quiz and user,
broadcast the score update (which also publishes it), then
`broadcastLeaderboard` (leaderboard save, broadcast and publication). -/
def submitEffects (quizID userID : String) : List Effect :=
  [Effect.saveQuiz quizID, Effect.saveUser userID,
   Effect.broadcast quizID "score_update",
   Effect.publish ("quiz:" ++ quizID) "score_update",
   Effect.saveLeaderboard quizID,
   Effect.broadcast quizID "leaderboard_update",
   Effect.publish ("quiz:" ++ quizID) "leaderboard_update"]

/-- The answer record built by `QuizService.SubmitAnswer`:
`correct = (answer == question.Correct)`, `points = question.Points` when
correct and `0` otherwise. -/
def mkAnswer (questionID : String) (choice : Int) (question : Question)
    (now : Nat) : Answer :=
  { questionID := questionID, answer := choice,
    correct := choice == question.correct,
    points := if choice == question.correct then question.points else 0,
    answeredAt := now }

/-- Models `QuizService.SubmitAnswer`: look up quiz, user, duplicate-answer
guard, question; compute correctness and points; append the answer record via
`User.AddAnswer`; then persist and broadcast. -/
def submitAnswer (quizzes : List Quiz) (quizID userID questionID : String)
    (choice : Int) (now : Nat) : SubmitResult :=
  match findQuiz quizzes quizID with
  | none => ⟨quizzes, [], .error .quizNotFound⟩
  | some quiz =>
    match findUser quiz userID with
    | none => ⟨quizzes, [], .error .userNotFound⟩
    | some user =>
      if user.hasAnswered questionID then
        ⟨quizzes, [], .error .alreadyAnswered⟩
      else
        match findQuestion quiz questionID with
        | none => ⟨quizzes, [], .error .questionNotFound⟩
        | some question =>
          let ans := mkAnswer questionID choice question now
          let user' := user.addAnswer ans
          let quiz' := { quiz with participants := quiz.participants.map fun u =>
              if u.id == userID then user' else u }
          ⟨quizzes.map fun q => if q.id == quizID then quiz' else q,
           submitEffects quizID userID,
           .ok ans⟩

/-- Models `QuizService.JoinQuiz`: look the quiz up, create a fresh user with
score 0 and an empty answer list, add it to the participant map (persistence
failures are warnings; the join broadcasts follow).  `userID` stands for the
generated uuid fragment. -/
def joinQuiz (quizzes : List Quiz) (quizID userName userID : String) (now : Nat) :
    Except SubmitError (List Quiz × User × List Effect) :=
  match findQuiz quizzes quizID with
  | none => .error .quizNotFound
  | some quiz =>
    let user : User :=
      { id := userID, name := userName, score := 0, answers := [], joinedAt := now }
    let quiz' := quiz.addParticipant user
    .ok (quizzes.map fun q => if q.id == quizID then quiz' else q,
         user,
         [Effect.saveQuiz quizID, Effect.saveUser userID,
          Effect.broadcast quizID "user_joined",
          Effect.publish ("quiz:" ++ quizID) "user_joined",
          Effect.saveLeaderboard quizID,
          Effect.broadcast quizID "leaderboard_update",
          Effect.publish ("quiz:" ++ quizID) "leaderboard_update"])

/-- Errors of `QuizService.StartQuiz` / `EndQuiz`. -/
inductive StartError where
  | quizNotFound
  | invalidState
deriving Repr, DecidableEq

/-- Models `QuizService.StartQuiz`: requires current status `waiting`
(otherwise the "quiz is not in waiting status" error), then sets status
`active` and the start timestamp. -/
def startQuiz (quizzes : List Quiz) (quizID : String) (now : Nat) :
    Except StartError (List Quiz) :=
  match findQuiz quizzes quizID with
  | none => .error .quizNotFound
  | some quiz =>
    if quiz.status ≠ QuizStatus.waiting then
      .error .invalidState
    else
      let quiz' := { quiz with status := QuizStatus.active, startedAt := some now }
      .ok (quizzes.map fun q => if q.id == quizID then quiz' else q)

/-- Models `QuizService.EndQuiz`: unconditionally sets status `ended` and the
end timestamp on the found quiz. -/
def endQuiz (quizzes : List Quiz) (quizID : String) (now : Nat) :
    Except StartError (List Quiz) :=
  match findQuiz quizzes quizID with
  | none => .error .quizNotFound
  | some quiz =>
    let quiz' := { quiz with status := QuizStatus.ended, endedAt := some now }
    .ok (quizzes.map fun q => if q.id == quizID then quiz' else q)

/-- The fixed question set of `getSampleQuestions`. -/
def getSampleQuestions : List Question :=
  [{ id := "q1", text := "What is the capital of Vietnam?",
     options := ["Hanoi", "Ho Chi Minh City", "Da Nang", "Hue"],
     correct := 0, points := 10, category := "Geography" },
   { id := "q2", text := "Which programming language is this quiz written in?",
     options := ["Python", "JavaScript", "Go", "Java"],
     correct := 2, points := 15, category := "Programming" },
   { id := "q3", text := "What is Redis primarily used for?",
     options := ["File storage", "In-memory data store", "Database backup", "Email service"],
     correct := 1, points := 20, category := "Technology" },
   { id := "q4", text := "What does WebSocket provide?",
     options := ["File upload", "Real-time communication", "Database queries", "Email sending"],
     correct := 1, points := 15, category := "Technology" },
   { id := "q5", text := "Which company owns Btaskee?",
     options := ["Grab", "GoJek", "Btaskee Pte Ltd", "Lazada"],
     correct := 2, points := 10, category := "Business" }]

/-- Map write `qs.Quizzes[quizID] = quiz` on the association-list model. -/
def setQuiz (quizzes : List Quiz) (quiz : Quiz) : List Quiz :=
  if quizzes.any fun q => q.id == quiz.id then
    quizzes.map fun q => if q.id == quiz.id then quiz else q
  else
    quizzes ++ [quiz]

/-- Models `QuizService.CreateQuiz`.  `quizID` stands for the generated uuid
fragment and `saveOk` for the outcome of `RedisService.SaveQuiz` (which
reports success both on a real write and as a silent no-op when Redis is
unavailable).  When the durable write fails the function returns the error
before the quiz is added to the registry. -/
def createQuiz (quizzes : List Quiz) (title quizID : String) (now : Nat)
    (saveOk : Bool) : Except String (List Quiz × Quiz) :=
  let quiz : Quiz :=
    { id := quizID, title := title, questions := getSampleQuestions,
      participants := [], status := QuizStatus.waiting, createdAt := now,
      startedAt := none, endedAt := none }
  if saveOk then
    .ok (setQuiz quizzes quiz, quiz)
  else
    .error "failed to save quiz to Redis"

/-- Models `services.Client`: connection id, bound quiz and user ids, and the
buffered `Send` channel (`capacity` is the buffer size, 256 at the
construction site; `sendQueue` its queued messages). -/
structure Client where
  id : String
  quizID : String
  userID : String
  sendQueue : List String
  capacity : Nat
deriving Repr, DecidableEq

/-- A non-blocking send on `client.Send` (the `select`/`default` in
`broadcastToQuiz`) succeeds exactly when the buffered channel has space. -/
def clientHasSpace (c : Client) : Bool := c.sendQueue.length < c.capacity

/-- Net effect of `broadcastToQuiz` on the client registry: the fan-out pass
enqueues the message to every matching client with queue space and collects
the matching clients with full queues, which the removal pass then deletes;
clients bound to other quizzes are untouched. -/
def broadcastStep (quizID : String) (data : String) : List Client → List Client
  | [] => []
  | c :: cs =>
    if c.quizID == quizID then
      if clientHasSpace c then
        { c with sendQueue := c.sendQueue ++ [data] } :: broadcastStep quizID data cs
      else
        broadcastStep quizID data cs
    else
      c :: broadcastStep quizID data cs

/-- Models `QuizService.broadcastToQuiz`: update the client registry, then
publish the same message to the Redis channel `quiz:<id>` for cross-instance
delivery.  The second component lists the `(channel, payload)` publications
performed. -/
def broadcastToQuiz (clients : List Client) (quizID : String) (data : String) :
    List Client × List (String × String) :=
  (broadcastStep quizID data clients, [("quiz:" ++ quizID, data)])

/-- Models the per-message body of the subscription loop in
`QuizService.startRedisSubscription`: strip the leading five characters
("quiz:") from the channel name and hand the decoded message to
`broadcastToQuiz`. -/
def handleRelayMessage (clients : List Client) (channel : String) (payload : String) :
    List Client × List (String × String) :=
  broadcastToQuiz clients (channel.drop 5) payload

/-- Invariant of the answer log: at most one answer per question id. -/
def answersNodupQ (u : User) : Prop :=
  (u.answers.map Answer.questionID).Nodup

/-- Invariant of the score: the stored score equals the sum of the points of
the answers whose correctness flag is set. -/
def scoreInvariant (u : User) : Prop :=
  u.score = ((u.answers.filter fun a => a.correct).map Answer.points).sum

/-- Quiz status order along the intended lifecycle. -/
def statusRank : QuizStatus → Nat
  | QuizStatus.waiting => 0
  | QuizStatus.active => 1
  | QuizStatus.ended => 2

/-- State-wide form of the score invariant. -/
def stateScoreInvariant (quizzes : List Quiz) : Prop :=
  ∀ q ∈ quizzes, ∀ u ∈ q.participants, scoreInvariant u

/-- State-wide form of the at-most-one-answer-per-question invariant. -/
def stateAnswersNodup (quizzes : List Quiz) : Prop :=
  ∀ q ∈ quizzes, ∀ u ∈ q.participants, answersNodupQ u

instance (u : User) : Decidable (answersNodupQ u) := by
  unfold answersNodupQ; infer_instance

instance (u : User) : Decidable (scoreInvariant u) := by
  unfold scoreInvariant; infer_instance

instance (l : List Quiz) : Decidable (stateAnswersNodup l) := by
  unfold stateAnswersNodup; infer_instance

instance (l : List Quiz) : Decidable (stateScoreInvariant l) := by
  unfold stateScoreInvariant; infer_instance

/-- Descending-score comparison used to state sortedness of the leaderboard. -/
def scoreGE (a b : LeaderboardEntry) : Prop := b.score ≤ a.score

/-- Demo participant with the earlier join timestamp. -/
def alice : User :=
  { id := "alice", name := "Alice", score := 0, answers := [], joinedAt := 1 }

/-- Demo participant with the later join timestamp. -/
def bob : User :=
  { id := "bob", name := "Bob", score := 0, answers := [], joinedAt := 2 }

/-- Demo quiz whose participant map iterates Alice first. -/
def quizAB : Quiz :=
  { id := "g1", title := "Geo", questions := getSampleQuestions,
    participants := [alice, bob], status := QuizStatus.waiting,
    createdAt := 0, startedAt := none, endedAt := none }

/-- The same quiz state with the other admissible map iteration order
(Go map iteration order is unspecified). -/
def quizBA : Quiz :=
  { quizAB with participants := [bob, alice] }

/-- Demo participants with pairwise distinct scores. -/
def carol : User :=
  { id := "carol", name := "Carol", score := 25, answers := [], joinedAt := 3 }

/-- Demo quiz with distinct scores, one iteration order. -/
def quizDistinctA : Quiz :=
  { quizAB with id := "g2", participants := [carol, bob] }

/-- Demo quiz with distinct scores, the other iteration order. -/
def quizDistinctB : Quiz :=
  { quizAB with id := "g2", participants := [bob, carol] }

/-- The first sample question. -/
def questionQ1 : Question :=
  { id := "q1", text := "What is the capital of Vietnam?",
    options := ["Hanoi", "Ho Chi Minh City", "Da Nang", "Hue"],
    correct := 0, points := 10, category := "Geography" }

/-- Demo answer: Alice answered question `q1` correctly. -/
def answerQ1 : Answer :=
  { questionID := "q1", answer := 0, correct := true, points := 10, answeredAt := 5 }

/-- Demo participant who already answered `q1`. -/
def aliceAnswered : User :=
  { alice with answers := [answerQ1], score := 10 }

/-- Demo quiz state after Alice answered `q1`. -/
def quizAnswered : Quiz :=
  { quizAB with participants := [aliceAnswered, bob], status := QuizStatus.active }

/-- Demo registry holding `quizAnswered`. -/
def demoState : List Quiz := [quizAnswered]

/-- Demo client bound to quiz `g1` with queue space. -/
def clientA : Client :=
  { id := "c1", quizID := "g1", userID := "alice", sendQueue := [], capacity := 256 }

/-- Demo client bound to quiz `g1` whose outbound queue is full. -/
def clientB : Client :=
  { id := "c2", quizID := "g1", userID := "bob", sendQueue := ["old"], capacity := 1 }

/-- Demo client bound to a different quiz. -/
def clientC : Client :=
  { id := "c3", quizID := "g9", userID := "dave", sendQueue := [], capacity := 256 }

/-- Demo client registry. -/
def demoClients : List Client := [clientA, clientB, clientC]

end BtaskeeQuiz

namespace BtaskeeQuiz

theorem hasAnswered_eq_false_iff (u : User) (qid : String) :
    u.hasAnswered qid = false ↔ qid ∉ u.answers.map Answer.questionID := by
  rw [Bool.eq_false_iff, ne_eq]
  simp [User.hasAnswered, List.any_eq_true, List.mem_map]

theorem addAnswer_answers (u : User) (a : Answer) :
    (u.addAnswer a).answers = u.answers ++ [a] := rfl

theorem addAnswer_score (u : User) (a : Answer) :
    (u.addAnswer a).score = if a.correct then u.score + a.points else u.score := rfl

theorem scoreInvariant_addAnswer (u : User) (a : Answer) (h : scoreInvariant u) :
    scoreInvariant (u.addAnswer a) := by
  unfold scoreInvariant at h ⊢
  by_cases hc : a.correct <;>
    simp [User.addAnswer, List.filter_append, List.filter_cons, hc, h]

theorem answersNodupQ_addAnswer (u : User) (a : Answer) (h : answersNodupQ u)
    (hna : u.hasAnswered a.questionID = false) : answersNodupQ (u.addAnswer a) := by
  unfold answersNodupQ at h ⊢
  rw [hasAnswered_eq_false_iff] at hna
  simp only [addAnswer_answers, List.map_append, List.map_cons, List.map_nil]
  rw [List.nodup_append]
  refine ⟨h, List.nodup_singleton _, ?_⟩
  intro x hx hx'
  simp at hx'
  exact hna (hx' ▸ hx)

theorem mem_map_update {α : Type} {l : List α} {p : α → Bool} {v : α} {x : α}
    (hx : x ∈ l.map fun a => if p a then v else a) : x = v ∨ x ∈ l := by
  rcases List.mem_map.mp hx with ⟨a, ha, he⟩
  by_cases h : p a
  · simp [h] at he
    exact Or.inl he.symm
  · simp [h] at he
    exact Or.inr (he ▸ ha)

theorem mem_addParticipant {q : Quiz} {user : User} {u : User}
    (hu : u ∈ (q.addParticipant user).participants) :
    u = user ∨ u ∈ q.participants := by
  unfold Quiz.addParticipant at hu
  by_cases h : q.participants.any fun w => w.id == user.id
  · rw [if_pos h] at hu
    exact mem_map_update hu
  · rw [if_neg h] at hu
    simp at hu
    rcases hu with hu | hu
    · exact Or.inr hu
    · exact Or.inl hu

theorem submitAnswer_quizNone {quizzes : List Quiz} {quizID userID questionID : String}
    {choice : Int} {now : Nat} (hq : findQuiz quizzes quizID = none) :
    submitAnswer quizzes quizID userID questionID choice now =
      ⟨quizzes, [], Except.error SubmitError.quizNotFound⟩ := by
  simp only [submitAnswer, hq]

theorem submitAnswer_userNone {quizzes : List Quiz} {quizID userID questionID : String}
    {choice : Int} {now : Nat} {quiz : Quiz}
    (hq : findQuiz quizzes quizID = some quiz) (hu : findUser quiz userID = none) :
    submitAnswer quizzes quizID userID questionID choice now =
      ⟨quizzes, [], Except.error SubmitError.userNotFound⟩ := by
  simp only [submitAnswer, hq, hu]

theorem submitAnswer_conflict {quizzes : List Quiz} {quizID userID questionID : String}
    {choice : Int} {now : Nat} {quiz : Quiz} {user : User}
    (hq : findQuiz quizzes quizID = some quiz) (hu : findUser quiz userID = some user)
    (hans : user.hasAnswered questionID = true) :
    submitAnswer quizzes quizID userID questionID choice now =
      ⟨quizzes, [], Except.error SubmitError.alreadyAnswered⟩ := by
  simp only [submitAnswer, hq, hu, hans, if_true]

theorem submitAnswer_questionNone {quizzes : List Quiz} {quizID userID questionID : String}
    {choice : Int} {now : Nat} {quiz : Quiz} {user : User}
    (hq : findQuiz quizzes quizID = some quiz) (hu : findUser quiz userID = some user)
    (hans : user.hasAnswered questionID = false)
    (hqn : findQuestion quiz questionID = none) :
    submitAnswer quizzes quizID userID questionID choice now =
      ⟨quizzes, [], Except.error SubmitError.questionNotFound⟩ := by
  simp only [submitAnswer, hq, hu, hans, hqn, Bool.false_eq_true, if_false]

theorem submitAnswer_success {quizzes : List Quiz} {quizID userID questionID : String}
    {choice : Int} {now : Nat} {quiz : Quiz} {user : User} {question : Question}
    (hq : findQuiz quizzes quizID = some quiz) (hu : findUser quiz userID = some user)
    (hans : user.hasAnswered questionID = false)
    (hqn : findQuestion quiz questionID = some question) :
    submitAnswer quizzes quizID userID questionID choice now =
      ⟨quizzes.map fun q => if q.id == quizID then
          ({ quiz with participants := quiz.participants.map fun u =>
              if u.id == userID then
                user.addAnswer (mkAnswer questionID choice question now)
              else u })
        else q,
       submitEffects quizID userID,
       Except.ok (mkAnswer questionID choice question now)⟩ := by
  simp only [submitAnswer, hq, hu, hans, hqn, Bool.false_eq_true, if_false]

theorem findQuiz_mem {quizzes : List Quiz} {quizID : String} {quiz : Quiz}
    (h : findQuiz quizzes quizID = some quiz) : quiz ∈ quizzes :=
  List.mem_of_find?_eq_some h

theorem findQuiz_id {quizzes : List Quiz} {quizID : String} {quiz : Quiz}
    (h : findQuiz quizzes quizID = some quiz) : quiz.id = quizID := by
  have := List.find?_some h
  simpa using this

theorem findUser_mem {q : Quiz} {userID : String} {user : User}
    (h : findUser q userID = some user) : user ∈ q.participants :=
  List.mem_of_find?_eq_some h

theorem submitAnswer_error_frame (quizzes : List Quiz)
    (quizID userID questionID : String) (choice : Int) (now : Nat) (e : SubmitError)
    (h : (submitAnswer quizzes quizID userID questionID choice now).result =
      Except.error e) :
    submitAnswer quizzes quizID userID questionID choice now =
      ⟨quizzes, [], Except.error e⟩ := by
  cases hq : findQuiz quizzes quizID with
  | none =>
    rw [submitAnswer_quizNone hq] at h ⊢
    simp only [Except.error.injEq] at h
    rw [h]
  | some quiz =>
    cases hu : findUser quiz userID with
    | none =>
      rw [submitAnswer_userNone hq hu] at h ⊢
      simp only [Except.error.injEq] at h
      rw [h]
    | some user =>
      cases hans : user.hasAnswered questionID with
      | true =>
        rw [submitAnswer_conflict hq hu hans] at h ⊢
        simp only [Except.error.injEq] at h
        rw [h]
      | false =>
        cases hqn : findQuestion quiz questionID with
        | none =>
          rw [submitAnswer_questionNone hq hu hans hqn] at h ⊢
          simp only [Except.error.injEq] at h
          rw [h]
        | some question =>
          rw [submitAnswer_success hq hu hans hqn] at h
          simp at h

theorem submitAnswer_preserves_score (quizzes : List Quiz)
    (quizID userID questionID : String) (choice : Int) (now : Nat)
    (h : stateScoreInvariant quizzes) :
    stateScoreInvariant (submitAnswer quizzes quizID userID questionID choice now).quizzes := by
  cases hq : findQuiz quizzes quizID with
  | none => rw [submitAnswer_quizNone hq]; exact h
  | some quiz =>
    cases hu : findUser quiz userID with
    | none => rw [submitAnswer_userNone hq hu]; exact h
    | some user =>
      cases hans : user.hasAnswered questionID with
      | true => rw [submitAnswer_conflict hq hu hans]; exact h
      | false =>
        cases hqn : findQuestion quiz questionID with
        | none => rw [submitAnswer_questionNone hq hu hans hqn]; exact h
        | some question =>
          rw [submitAnswer_success hq hu hans hqn]
          intro q hqmem u humem
          rcases mem_map_update hqmem with rfl | hq0
          · rcases mem_map_update humem with rfl | hu0
            · exact scoreInvariant_addAnswer _ _
                (h quiz (findQuiz_mem hq) user (findUser_mem hu))
            · exact h quiz (findQuiz_mem hq) u hu0
          · exact h q hq0 u humem

theorem submitAnswer_preserves_nodup (quizzes : List Quiz)
    (quizID userID questionID : String) (choice : Int) (now : Nat)
    (h : stateAnswersNodup quizzes) :
    stateAnswersNodup (submitAnswer quizzes quizID userID questionID choice now).quizzes := by
  cases hq : findQuiz quizzes quizID with
  | none => rw [submitAnswer_quizNone hq]; exact h
  | some quiz =>
    cases hu : findUser quiz userID with
    | none => rw [submitAnswer_userNone hq hu]; exact h
    | some user =>
      cases hans : user.hasAnswered questionID with
      | true => rw [submitAnswer_conflict hq hu hans]; exact h
      | false =>
        cases hqn : findQuestion quiz questionID with
        | none => rw [submitAnswer_questionNone hq hu hans hqn]; exact h
        | some question =>
          rw [submitAnswer_success hq hu hans hqn]
          intro q hqmem u humem
          rcases mem_map_update hqmem with rfl | hq0
          · rcases mem_map_update humem with rfl | hu0
            · exact answersNodupQ_addAnswer _ _
                (h quiz (findQuiz_mem hq) user (findUser_mem hu)) hans
            · exact h quiz (findQuiz_mem hq) u hu0
          · exact h q hq0 u humem

theorem joinQuiz_ok_inv {quizzes : List Quiz} {quizID userName userID : String}
    {now : Nat} {st' : List Quiz} {user : User} {effs : List Effect}
    (h : joinQuiz quizzes quizID userName userID now = Except.ok (st', user, effs)) :
    user = { id := userID, name := userName, score := 0, answers := [], joinedAt := now } ∧
    ∃ quiz, findQuiz quizzes quizID = some quiz ∧
      st' = quizzes.map fun q => if q.id == quizID then quiz.addParticipant user else q := by
  cases hq : findQuiz quizzes quizID with
  | none => simp [joinQuiz, hq] at h
  | some quiz =>
    simp only [joinQuiz, hq, Except.ok.injEq, Prod.mk.injEq] at h
    obtain ⟨h1, h2, h3⟩ := h
    subst h2
    exact ⟨rfl, quiz, rfl, h1.symm⟩

theorem joinQuiz_preserves_nodup {quizzes : List Quiz} {quizID userName userID : String}
    {now : Nat} {st' : List Quiz} {user : User} {effs : List Effect}
    (hinv : stateAnswersNodup quizzes)
    (h : joinQuiz quizzes quizID userName userID now = Except.ok (st', user, effs)) :
    stateAnswersNodup st' := by
  obtain ⟨huser, quiz, hq, hst⟩ := joinQuiz_ok_inv h
  subst hst
  intro q hqmem u humem
  rcases mem_map_update hqmem with rfl | hq0
  · rcases mem_addParticipant humem with rfl | hu0
    · rw [huser]; simp [answersNodupQ]
    · exact hinv quiz (findQuiz_mem hq) u hu0
  · exact hinv q hq0 u humem

theorem joinQuiz_preserves_score {quizzes : List Quiz} {quizID userName userID : String}
    {now : Nat} {st' : List Quiz} {user : User} {effs : List Effect}
    (hinv : stateScoreInvariant quizzes)
    (h : joinQuiz quizzes quizID userName userID now = Except.ok (st', user, effs)) :
    stateScoreInvariant st' ∧ scoreInvariant user := by
  obtain ⟨huser, quiz, hq, hst⟩ := joinQuiz_ok_inv h
  subst hst
  constructor
  · intro q hqmem u humem
    rcases mem_map_update hqmem with rfl | hq0
    · rcases mem_addParticipant humem with rfl | hu0
      · rw [huser]; simp [scoreInvariant]
      · exact hinv quiz (findQuiz_mem hq) u hu0
    · exact hinv q hq0 u humem
  · rw [huser]; simp [scoreInvariant]

/-- C1: if a user already has an answer recorded for a question id then a
SubmitAnswer call for the same (quiz, user, question) fails with the conflict
error and leaves the registry — hence the user's answer list — unchanged;
moreover the at-most-one-answer-per-question-id invariant is preserved by
SubmitAnswer and by JoinQuiz (which initialises users with an empty answer
list), so for a given (user, quiz) at most one answer per question id ever
exists. -/
theorem submitAnswer_at_most_once (quizzes : List Quiz)
    (quizID userID questionID userName : String) (choice : Int) (now : Nat) :
    (∀ quiz user, findQuiz quizzes quizID = some quiz →
        findUser quiz userID = some user → user.hasAnswered questionID = true →
        submitAnswer quizzes quizID userID questionID choice now =
          ⟨quizzes, [], Except.error SubmitError.alreadyAnswered⟩) ∧
    (stateAnswersNodup quizzes →
        stateAnswersNodup (submitAnswer quizzes quizID userID questionID choice now).quizzes) ∧
    (∀ st' user effs, stateAnswersNodup quizzes →
        joinQuiz quizzes quizID userName userID now = Except.ok (st', user, effs) →
        stateAnswersNodup st') := by
  refine ⟨?_, ?_, ?_⟩
  · intro quiz user hq hu hans
    exact submitAnswer_conflict hq hu hans
  · intro h
    exact submitAnswer_preserves_nodup _ _ _ _ _ _ h
  · intro st' user effs h hj
    exact joinQuiz_preserves_nodup h hj

theorem submitAnswer_at_most_once_witness :
    findQuiz demoState "g1" = some quizAnswered ∧
    findUser quizAnswered "alice" = some aliceAnswered ∧
    aliceAnswered.hasAnswered "q1" = true ∧
    stateAnswersNodup demoState ∧
    submitAnswer demoState "g1" "alice" "q1" 2 7 =
      ⟨demoState, [], Except.error SubmitError.alreadyAnswered⟩ ∧
    stateAnswersNodup (submitAnswer demoState "g1" "alice" "q1" 2 7).quizzes :=
  ⟨by decide, by decide, by decide, by decide,
   (submitAnswer_at_most_once demoState "g1" "alice" "q1" "Dave" 2 7).1
     quizAnswered aliceAnswered (by decide) (by decide) (by decide),
   (submitAnswer_at_most_once demoState "g1" "alice" "q1" "Dave" 2 7).2.1
     (by decide)⟩

/-- C2: a freshly joined user satisfies the score invariant, AddAnswer
preserves it for every answer record, and consequently SubmitAnswer preserves
it across the registry and JoinQuiz both preserves it and establishes it for
the new user: the stored score always equals the sum of points over the
answers whose correct flag is true. -/
theorem score_matches_answers (quizzes : List Quiz)
    (quizID userID questionID userName : String) (choice : Int) (now : Nat) :
    scoreInvariant
      { id := userID, name := userName, score := 0, answers := [], joinedAt := now } ∧
    (∀ (u : User) (a : Answer), scoreInvariant u → scoreInvariant (u.addAnswer a)) ∧
    (stateScoreInvariant quizzes →
        stateScoreInvariant (submitAnswer quizzes quizID userID questionID choice now).quizzes) ∧
    (∀ st' user effs, stateScoreInvariant quizzes →
        joinQuiz quizzes quizID userName userID now = Except.ok (st', user, effs) →
        stateScoreInvariant st' ∧ scoreInvariant user) := by
  refine ⟨by simp [scoreInvariant], scoreInvariant_addAnswer, ?_, ?_⟩
  · intro h
    exact submitAnswer_preserves_score _ _ _ _ _ _ h
  · intro st' user effs h hj
    exact joinQuiz_preserves_score h hj

theorem score_matches_answers_witness :
    stateScoreInvariant demoState ∧
    stateScoreInvariant (submitAnswer demoState "g1" "bob" "q1" 2 7).quizzes :=
  ⟨by decide,
   (score_matches_answers demoState "g1" "bob" "q1" "Dave" 2 7).2.2.1 (by decide)⟩

/-- C10: on every error return (quiz not found, user not found, duplicate
answer, question not found) SubmitAnswer leaves the quiz registry — the
answer lists, scores and participant maps — exactly as it was and performs no
broadcast or persistence effect. -/
theorem submitAnswer_atomic_on_error (quizzes : List Quiz)
    (quizID userID questionID : String) (choice : Int) (now : Nat) (e : SubmitError)
    (h : (submitAnswer quizzes quizID userID questionID choice now).result =
      Except.error e) :
    (submitAnswer quizzes quizID userID questionID choice now).quizzes = quizzes ∧
    (submitAnswer quizzes quizID userID questionID choice now).effects = [] := by
  rw [submitAnswer_error_frame quizzes quizID userID questionID choice now e h]
  exact ⟨rfl, rfl⟩

theorem submitAnswer_atomic_on_error_witness :
    (submitAnswer demoState "g1" "alice" "q1" 2 7).result =
      Except.error SubmitError.alreadyAnswered ∧
    (submitAnswer demoState "g1" "alice" "q1" 2 7).quizzes = demoState ∧
    (submitAnswer demoState "g1" "alice" "q1" 2 7).effects = [] :=
  ⟨by decide,
   submitAnswer_atomic_on_error demoState "g1" "alice" "q1" 2 7
     SubmitError.alreadyAnswered (by decide)⟩

/-- C3: full case analysis of SubmitAnswer: not-found error when the quiz or
the user is absent, conflict on a duplicate answer, not-found when the
question id is unknown; otherwise it computes
correct = (choice == question.correct), points = question.points if correct
else 0, appends the answer record to the user and updates the score
accordingly. -/
theorem submitAnswer_cases (quizzes : List Quiz)
    (quizID userID questionID : String) (choice : Int) (now : Nat) :
    (findQuiz quizzes quizID = none →
        submitAnswer quizzes quizID userID questionID choice now =
          ⟨quizzes, [], Except.error SubmitError.quizNotFound⟩) ∧
    ∀ quiz, findQuiz quizzes quizID = some quiz →
      (findUser quiz userID = none →
          submitAnswer quizzes quizID userID questionID choice now =
            ⟨quizzes, [], Except.error SubmitError.userNotFound⟩) ∧
      ∀ user, findUser quiz userID = some user →
        (user.hasAnswered questionID = true →
            submitAnswer quizzes quizID userID questionID choice now =
              ⟨quizzes, [], Except.error SubmitError.alreadyAnswered⟩) ∧
        (user.hasAnswered questionID = false →
          (findQuestion quiz questionID = none →
              submitAnswer quizzes quizID userID questionID choice now =
                ⟨quizzes, [], Except.error SubmitError.questionNotFound⟩) ∧
          ∀ question, findQuestion quiz questionID = some question →
            (mkAnswer questionID choice question now).correct =
              (choice == question.correct) ∧
            (mkAnswer questionID choice question now).points =
              (if choice == question.correct then question.points else 0) ∧
            (user.addAnswer (mkAnswer questionID choice question now)).answers =
              user.answers ++ [mkAnswer questionID choice question now] ∧
            (user.addAnswer (mkAnswer questionID choice question now)).score =
              (if choice == question.correct then user.score + question.points
               else user.score) ∧
            submitAnswer quizzes quizID userID questionID choice now =
              ⟨quizzes.map fun q => if q.id == quizID then
                  ({ quiz with participants := quiz.participants.map fun u =>
                      if u.id == userID then
                        user.addAnswer (mkAnswer questionID choice question now)
                      else u })
                else q,
               submitEffects quizID userID,
               Except.ok (mkAnswer questionID choice question now)⟩) := by
  refine ⟨fun hq => submitAnswer_quizNone hq, ?_⟩
  intro quiz hq
  refine ⟨fun hu => submitAnswer_userNone hq hu, ?_⟩
  intro user hu
  refine ⟨fun hans => submitAnswer_conflict hq hu hans, ?_⟩
  intro hans
  refine ⟨fun hqn => submitAnswer_questionNone hq hu hans hqn, ?_⟩
  intro question hqn
  refine ⟨rfl, rfl, rfl, ?_, submitAnswer_success hq hu hans hqn⟩
  by_cases hc : choice = question.correct <;>
    simp [User.addAnswer, mkAnswer, hc]

theorem submitAnswer_cases_witness :
    findQuiz demoState "g1" = some quizAnswered ∧
    findUser quizAnswered "bob" = some bob ∧
    bob.hasAnswered "q1" = false ∧
    findQuestion quizAnswered "q1" = some questionQ1 ∧
    (bob.addAnswer (mkAnswer "q1" 0 questionQ1 9)).score =
      (if (0 : Int) == questionQ1.correct then bob.score + questionQ1.points
       else bob.score) :=
  ⟨by decide, by decide, by decide, by decide,
   (((((submitAnswer_cases demoState "g1" "bob" "q1" 0 9).2 quizAnswered
       (by decide)).2 bob (by decide)).2 (by decide)).2 questionQ1
       (by decide)).2.2.2.1⟩

theorem exchangePass_cons_pos {c x : LeaderboardEntry} {xs : List LeaderboardEntry}
    (h : c.score < x.score) :
    exchangePass c (x :: xs) = ((exchangePass x xs).1, c :: (exchangePass x xs).2) := by
  simp [exchangePass, h]

theorem exchangePass_cons_neg {c x : LeaderboardEntry} {xs : List LeaderboardEntry}
    (h : ¬ c.score < x.score) :
    exchangePass c (x :: xs) = ((exchangePass c xs).1, x :: (exchangePass c xs).2) := by
  simp [exchangePass, h]

theorem exchangePass_snd_length (c : LeaderboardEntry) (l : List LeaderboardEntry) :
    (exchangePass c l).2.length = l.length := by
  induction l generalizing c with
  | nil => rfl
  | cons x xs ih =>
    by_cases h : c.score < x.score
    · rw [exchangePass_cons_pos h]; simp [ih]
    · rw [exchangePass_cons_neg h]; simp [ih]

theorem exchangePass_perm (c : LeaderboardEntry) (l : List LeaderboardEntry) :
    List.Perm (c :: l) ((exchangePass c l).1 :: (exchangePass c l).2) := by
  induction l generalizing c with
  | nil => simp [exchangePass]
  | cons x xs ih =>
    by_cases h : c.score < x.score
    · rw [exchangePass_cons_pos h]
      exact ((ih x).cons c).trans (List.Perm.swap _ _ _)
    · rw [exchangePass_cons_neg h]
      exact (List.Perm.swap x c xs).trans (((ih c).cons x).trans (List.Perm.swap _ _ _))

theorem exchangePass_fst_ge (c : LeaderboardEntry) (l : List LeaderboardEntry) :
    ∀ y ∈ c :: l, y.score ≤ (exchangePass c l).1.score := by
  induction l generalizing c with
  | nil =>
    intro y hy
    simp at hy
    subst hy
    simp [exchangePass]
  | cons x xs ih =>
    intro y hy
    by_cases h : c.score < x.score
    · rw [exchangePass_cons_pos h]
      rcases List.mem_cons.mp hy with heq | hy'
      · rw [heq]
        exact le_of_lt (lt_of_lt_of_le h (ih x x (List.mem_cons_self x xs)))
      · exact ih x y hy'
    · rw [exchangePass_cons_neg h]
      rcases List.mem_cons.mp hy with heq | hy'
      · rw [heq]
        exact ih c c (List.mem_cons_self c xs)
      · rcases List.mem_cons.mp hy' with heq | hy''
        · rw [heq]
          exact le_trans (le_of_not_lt h) (ih c c (List.mem_cons_self c xs))
        · exact ih c y (List.mem_cons_of_mem c hy'')

theorem exchangeSortAux_congr (n : Nat) :
    ∀ (m : Nat) (l : List LeaderboardEntry), l.length ≤ n → l.length ≤ m →
      exchangeSortAux n l = exchangeSortAux m l := by
  induction n with
  | zero =>
    intro m l h1 _
    have : l = [] := List.eq_nil_of_length_eq_zero (Nat.le_zero.mp h1)
    subst this
    cases m <;> rfl
  | succ n ih =>
    intro m l h1 h2
    cases l with
    | nil => cases m <;> rfl
    | cons x xs =>
      cases m with
      | zero => simp at h2
      | succ m =>
        simp only [exchangeSortAux]
        congr 1
        apply ih
        · rw [exchangePass_snd_length]
          simpa using h1
        · rw [exchangePass_snd_length]
          simpa using h2

theorem exchangeSort_nil : exchangeSort [] = [] := rfl

theorem exchangeSort_cons (x : LeaderboardEntry) (xs : List LeaderboardEntry) :
    exchangeSort (x :: xs) =
      (exchangePass x xs).1 :: exchangeSort (exchangePass x xs).2 := by
  show exchangeSortAux (x :: xs).length (x :: xs) = _
  rw [List.length_cons]
  show (exchangePass x xs).1 :: exchangeSortAux xs.length (exchangePass x xs).2 = _
  rw [exchangeSort, exchangePass_snd_length]

theorem exchangeSort_perm (l : List LeaderboardEntry) :
    List.Perm l (exchangeSort l) := by
  generalize hn : l.length = n
  induction n generalizing l with
  | zero =>
    rw [List.length_eq_zero] at hn
    subst hn
    simp [exchangeSort_nil]
  | succ n ih =>
    cases l with
    | nil => simp at hn
    | cons x xs =>
      rw [exchangeSort_cons]
      have hlen : (exchangePass x xs).2.length = n := by
        rw [exchangePass_snd_length]
        simpa using hn
      exact (exchangePass_perm x xs).trans ((ih _ hlen).cons _)

theorem exchangeSort_sorted (l : List LeaderboardEntry) :
    (exchangeSort l).Pairwise scoreGE := by
  generalize hn : l.length = n
  induction n generalizing l with
  | zero =>
    rw [List.length_eq_zero] at hn
    subst hn
    simp [exchangeSort_nil]
  | succ n ih =>
    cases l with
    | nil => simp at hn
    | cons x xs =>
      rw [exchangeSort_cons]
      have hlen : (exchangePass x xs).2.length = n := by
        rw [exchangePass_snd_length]
        simpa using hn
      refine List.pairwise_cons.mpr ⟨?_, ih _ hlen⟩
      intro b hb
      have hb2 : b ∈ (exchangePass x xs).2 :=
        (exchangeSort_perm _).mem_iff.mpr hb
      have hb3 : b ∈ x :: xs :=
        (exchangePass_perm x xs).mem_iff.mpr (List.mem_cons_of_mem _ hb2)
      exact exchangePass_fst_ge x xs b hb3

theorem addPositionsFrom_length (n : Nat) (l : List LeaderboardEntry) :
    (addPositionsFrom n l).length = l.length := by
  induction l generalizing n with
  | nil => rfl
  | cons e es ih => simp [addPositionsFrom, ih]

theorem addPositionsFrom_map_position (n : Nat) (l : List LeaderboardEntry) :
    (addPositionsFrom n l).map LeaderboardEntry.position = List.range' n l.length := by
  induction l generalizing n with
  | nil => rfl
  | cons e es ih => simp [addPositionsFrom, List.range'_succ, ih]

theorem addPositionsFrom_map_score (n : Nat) (l : List LeaderboardEntry) :
    (addPositionsFrom n l).map LeaderboardEntry.score =
      l.map LeaderboardEntry.score := by
  induction l generalizing n with
  | nil => rfl
  | cons e es ih => simp [addPositionsFrom, ih]

theorem addPositionsFrom_map_userID (n : Nat) (l : List LeaderboardEntry) :
    (addPositionsFrom n l).map LeaderboardEntry.userID =
      l.map LeaderboardEntry.userID := by
  induction l generalizing n with
  | nil => rfl
  | cons e es ih => simp [addPositionsFrom, ih]

theorem pairwise_scoreGE_addPositionsFrom (n : Nat) (l : List LeaderboardEntry)
    (h : l.Pairwise scoreGE) : (addPositionsFrom n l).Pairwise scoreGE := by
  induction l generalizing n with
  | nil => simp [addPositionsFrom]
  | cons e es ih =>
    rcases List.pairwise_cons.mp h with ⟨h1, h2⟩
    refine List.pairwise_cons.mpr ⟨?_, ih (n + 1) h2⟩
    intro b hb
    have hsc : b.score ∈ (addPositionsFrom (n + 1) es).map LeaderboardEntry.score :=
      List.mem_map_of_mem _ hb
    rw [addPositionsFrom_map_score] at hsc
    rcases List.mem_map.mp hsc with ⟨b0, hb0, hs⟩
    have hle : b0.score ≤ e.score := h1 b0 hb0
    show b.score ≤ e.score
    rw [← hs]
    exact hle

/-- C5: for a quiz with a non-empty participant set, GetLeaderboard returns
one entry per participant (same length and the entry user ids are a
permutation of the participant ids), sorted by score in descending order,
and the position values are exactly the contiguous sequence 1..N assigned by
position after sorting. -/
theorem getLeaderboard_sorted_ranked (q : Quiz) (hne : q.participants ≠ []) :
    q.getLeaderboard.length = q.participants.length ∧
    q.getLeaderboard.Pairwise scoreGE ∧
    q.getLeaderboard.map LeaderboardEntry.position =
      List.range' 1 q.participants.length ∧
    List.Perm (q.getLeaderboard.map LeaderboardEntry.userID)
      (q.participants.map User.id) := by
  clear hne
  unfold Quiz.getLeaderboard
  have hlen1 : ∀ l : List LeaderboardEntry, (exchangeSort l).length = l.length :=
    fun l => ((exchangeSort_perm l).length_eq).symm
  refine ⟨?_, ?_, ?_, ?_⟩
  · rw [addPositionsFrom_length, hlen1, List.length_map]
  · exact pairwise_scoreGE_addPositionsFrom _ _ (exchangeSort_sorted _)
  · rw [addPositionsFrom_map_position, hlen1, List.length_map]
  · rw [addPositionsFrom_map_userID]
    have h2 := ((exchangeSort_perm (q.participants.map fun u =>
      { userID := u.id, name := u.name, score := u.score,
        position := 0 })).symm).map LeaderboardEntry.userID
    rw [List.map_map] at h2
    exact h2

theorem getLeaderboard_sorted_ranked_witness :
    quizAB.participants ≠ [] ∧
    quizAB.getLeaderboard.length = quizAB.participants.length ∧
    quizAB.getLeaderboard.Pairwise scoreGE ∧
    quizAB.getLeaderboard.map LeaderboardEntry.position =
      List.range' 1 quizAB.participants.length ∧
    List.Perm (quizAB.getLeaderboard.map LeaderboardEntry.userID)
      (quizAB.participants.map User.id) :=
  ⟨by decide, getLeaderboard_sorted_ranked quizAB (by decide)⟩

/-- C6 counterexample: Alice and Bob have equal scores and Alice joined
earlier.  The same quiz state under its two admissible map iteration orders
yields two different leaderboard orderings, and in the second one the
earlier-joined Alice is ranked below Bob — so ties are not broken by
JoinedAt (nor by user id), and repeated calls over the unchanged state need
not return an identical ordering. -/
theorem getLeaderboard_tie_order_dependent :
    List.Perm quizAB.participants quizBA.participants ∧
    alice.score = bob.score ∧
    alice.joinedAt < bob.joinedAt ∧
    quizAB.getLeaderboard.map (fun e => (e.userID, e.position)) =
      [("alice", 1), ("bob", 2)] ∧
    quizBA.getLeaderboard.map (fun e => (e.userID, e.position)) =
      [("bob", 1), ("alice", 2)] :=
  ⟨List.Perm.swap bob alice [], by decide, by decide, by decide, by decide⟩

theorem eq_of_perm_sorted_nodup :
    ∀ {l1 l2 : List LeaderboardEntry}, List.Perm l1 l2 →
      l1.Pairwise scoreGE → l2.Pairwise scoreGE →
      (l1.map LeaderboardEntry.score).Nodup → l1 = l2 := by
  intro l1
  induction l1 with
  | nil =>
    intro l2 hp _ _ _
    exact hp.nil_eq
  | cons a t1 ih =>
    intro l2 hp h1 h2 hnd
    rw [List.map_cons, List.nodup_cons] at hnd
    cases l2 with
    | nil =>
      have := hp.symm.nil_eq
      simp at this
    | cons b t2 =>
      have hb1 : b ∈ a :: t1 := hp.mem_iff.mpr (List.mem_cons_self b t2)
      have ha2 : a ∈ b :: t2 := hp.mem_iff.mp (List.mem_cons_self a t1)
      have hab : a = b := by
        rcases List.mem_cons.mp hb1 with heq | hbt1
        · exact heq.symm
        · rcases List.mem_cons.mp ha2 with heq | hat2
          · exact heq
          · exfalso
            have hba : b.score ≤ a.score := (List.pairwise_cons.mp h1).1 b hbt1
            have hab' : a.score ≤ b.score := (List.pairwise_cons.mp h2).1 a hat2
            have heq : a.score = b.score := le_antisymm hab' hba
            apply hnd.1
            rw [heq]
            exact List.mem_map_of_mem _ hbt1
      subst hab
      have hp' : List.Perm t1 t2 := hp.cons_inv
      rw [ih hp' (List.pairwise_cons.mp h1).2 (List.pairwise_cons.mp h2).2 hnd.2]

/-- C6 amended: GetLeaderboard is a pure function of the participant
iteration sequence, and whenever all participants' scores are pairwise
distinct the ordering is moreover independent of the map iteration order (the
same participant set always yields the same leaderboard).  On tied scores the
ordering depends on the nondeterministic map iteration order — the code has
no JoinedAt or user-id tiebreak. -/
theorem getLeaderboard_deterministic_of_distinct (q1 q2 : Quiz)
    (hperm : List.Perm q1.participants q2.participants)
    (hnd : (q1.participants.map User.score).Nodup) :
    q1.getLeaderboard = q2.getLeaderboard := by
  unfold Quiz.getLeaderboard
  congr 1
  apply eq_of_perm_sorted_nodup
  · exact ((exchangeSort_perm _).symm.trans (hperm.map _)).trans (exchangeSort_perm _)
  · exact exchangeSort_sorted _
  · exact exchangeSort_sorted _
  · have h2 := ((exchangeSort_perm (q1.participants.map fun u =>
      { userID := u.id, name := u.name, score := u.score,
        position := 0 })).symm).map LeaderboardEntry.score
    rw [List.map_map] at h2
    exact h2.nodup_iff.mpr hnd

theorem getLeaderboard_deterministic_of_distinct_witness :
    List.Perm quizDistinctA.participants quizDistinctB.participants ∧
    (quizDistinctA.participants.map User.score).Nodup ∧
    quizDistinctA.getLeaderboard = quizDistinctB.getLeaderboard :=
  ⟨List.Perm.swap bob carol [], by decide,
   getLeaderboard_deterministic_of_distinct quizDistinctA quizDistinctB
     (List.Perm.swap bob carol []) (by decide)⟩

theorem broadcastStep_nil {quizID data : String} :
    broadcastStep quizID data [] = [] := rfl

theorem broadcastStep_cons_match_space {quizID data : String} {c : Client}
    {cs : List Client} (h1 : c.quizID = quizID) (h2 : clientHasSpace c = true) :
    broadcastStep quizID data (c :: cs) =
      { c with sendQueue := c.sendQueue ++ [data] } :: broadcastStep quizID data cs := by
  simp [broadcastStep, h1, h2]

theorem broadcastStep_cons_match_full {quizID data : String} {c : Client}
    {cs : List Client} (h1 : c.quizID = quizID) (h2 : clientHasSpace c = false) :
    broadcastStep quizID data (c :: cs) = broadcastStep quizID data cs := by
  simp [broadcastStep, h1, h2]

theorem broadcastStep_cons_other {quizID data : String} {c : Client}
    {cs : List Client} (h1 : c.quizID ≠ quizID) :
    broadcastStep quizID data (c :: cs) = c :: broadcastStep quizID data cs := by
  simp [broadcastStep, h1]

theorem broadcastStep_delivers {quizID data : String} :
    ∀ {cs : List Client} {c : Client}, c ∈ cs → c.quizID = quizID →
      clientHasSpace c = true →
      { c with sendQueue := c.sendQueue ++ [data] } ∈ broadcastStep quizID data cs := by
  intro cs
  induction cs with
  | nil =>
    intro c hc
    simp at hc
  | cons c0 cs ih =>
    intro c hc hm hs
    rcases List.mem_cons.mp hc with heq | hc'
    · rw [heq] at hm hs ⊢
      rw [broadcastStep_cons_match_space hm hs]
      exact List.mem_cons_self _ _
    · by_cases h0 : c0.quizID = quizID
      · cases hsp : clientHasSpace c0 with
        | true =>
          rw [broadcastStep_cons_match_space h0 hsp]
          exact List.mem_cons_of_mem _ (ih hc' hm hs)
        | false =>
          rw [broadcastStep_cons_match_full h0 hsp]
          exact ih hc' hm hs
      · rw [broadcastStep_cons_other h0]
        exact List.mem_cons_of_mem _ (ih hc' hm hs)

theorem broadcastStep_keeps {quizID data : String} :
    ∀ {cs : List Client} {c : Client}, c ∈ cs → c.quizID ≠ quizID →
      c ∈ broadcastStep quizID data cs := by
  intro cs
  induction cs with
  | nil =>
    intro c hc
    simp at hc
  | cons c0 cs ih =>
    intro c hc hm
    rcases List.mem_cons.mp hc with heq | hc'
    · rw [heq] at hm ⊢
      rw [broadcastStep_cons_other hm]
      exact List.mem_cons_self _ _
    · by_cases h0 : c0.quizID = quizID
      · cases hsp : clientHasSpace c0 with
        | true =>
          rw [broadcastStep_cons_match_space h0 hsp]
          exact List.mem_cons_of_mem _ (ih hc' hm)
        | false =>
          rw [broadcastStep_cons_match_full h0 hsp]
          exact ih hc' hm
      · rw [broadcastStep_cons_other h0]
        exact List.mem_cons_of_mem _ (ih hc' hm)

theorem broadcastStep_origin {quizID data : String} :
    ∀ {cs : List Client} {c' : Client}, c' ∈ broadcastStep quizID data cs →
      ∃ c0 ∈ cs, c'.id = c0.id ∧
        ((c0.quizID ≠ quizID ∧ c' = c0) ∨
         (c0.quizID = quizID ∧ clientHasSpace c0 = true ∧
          c' = { c0 with sendQueue := c0.sendQueue ++ [data] })) := by
  intro cs
  induction cs with
  | nil =>
    intro c' h
    simp [broadcastStep_nil] at h
  | cons c0 cs ih =>
    intro c' h
    by_cases h0 : c0.quizID = quizID
    · cases hsp : clientHasSpace c0 with
      | true =>
        rw [broadcastStep_cons_match_space h0 hsp] at h
        rcases List.mem_cons.mp h with heq | h'
        · exact ⟨c0, List.mem_cons_self _ _, by rw [heq], Or.inr ⟨h0, hsp, heq⟩⟩
        · obtain ⟨c1, hc1, hid, hcase⟩ := ih h'
          exact ⟨c1, List.mem_cons_of_mem _ hc1, hid, hcase⟩
      | false =>
        rw [broadcastStep_cons_match_full h0 hsp] at h
        obtain ⟨c1, hc1, hid, hcase⟩ := ih h
        exact ⟨c1, List.mem_cons_of_mem _ hc1, hid, hcase⟩
    · rw [broadcastStep_cons_other h0] at h
      rcases List.mem_cons.mp h with heq | h'
      · exact ⟨c0, List.mem_cons_self _ _, by rw [heq], Or.inl ⟨h0, heq⟩⟩
      · obtain ⟨c1, hc1, hid, hcase⟩ := ih h'
        exact ⟨c1, List.mem_cons_of_mem _ hc1, hid, hcase⟩

/-- C4: Broadcast delivers the event to every registered client bound to the
quiz whose outbound queue has space and to no client bound to a different
quiz (such clients stay untouched); a matching client whose queue is full is
removed from the registry (no client with its id remains), and the delivery
statement holds for every matching client independently, so one removal never
prevents delivery to another matching client. -/
theorem broadcast_fanout (clients : List Client) (quizID data : String)
    (hnodup : (clients.map Client.id).Nodup) :
    ∀ c ∈ clients,
      (c.quizID = quizID → clientHasSpace c = true →
        { c with sendQueue := c.sendQueue ++ [data] } ∈
          (broadcastToQuiz clients quizID data).1) ∧
      (c.quizID ≠ quizID →
        c ∈ (broadcastToQuiz clients quizID data).1 ∧
        ∀ c' ∈ (broadcastToQuiz clients quizID data).1, c'.id = c.id → c' = c) ∧
      (c.quizID = quizID → clientHasSpace c = false →
        ∀ c' ∈ (broadcastToQuiz clients quizID data).1, c'.id ≠ c.id) := by
  intro c hc
  refine ⟨fun hm hs => broadcastStep_delivers hc hm hs, ?_, ?_⟩
  · intro hm
    refine ⟨broadcastStep_keeps hc hm, ?_⟩
    intro c' hc' hid
    obtain ⟨c0, hc0, hid0, hcase⟩ := broadcastStep_origin hc'
    have hc0c : c0 = c := by
      apply List.inj_on_of_nodup_map hnodup hc0 hc
      rw [← hid0]
      exact hid
    subst hc0c
    rcases hcase with ⟨_, heq⟩ | ⟨hm0, _, _⟩
    · exact heq
    · exact absurd hm0 hm
  · intro hm hs c' hc' hid
    obtain ⟨c0, hc0, hid0, hcase⟩ := broadcastStep_origin hc'
    have hc0c : c0 = c := by
      apply List.inj_on_of_nodup_map hnodup hc0 hc
      rw [← hid0]
      exact hid
    subst hc0c
    rcases hcase with ⟨hm0, _⟩ | ⟨_, hsp, _⟩
    · exact hm0 hm
    · rw [hs] at hsp
      exact Bool.false_ne_true hsp

theorem broadcast_fanout_witness :
    (demoClients.map Client.id).Nodup ∧
    clientA.quizID = "g1" ∧ clientHasSpace clientA = true ∧
    clientB.quizID = "g1" ∧ clientHasSpace clientB = false ∧
    clientC.quizID ≠ "g1" ∧
    ({ clientA with sendQueue := clientA.sendQueue ++ ["m"] } ∈
      (broadcastToQuiz demoClients "g1" "m").1) ∧
    (∀ c' ∈ (broadcastToQuiz demoClients "g1" "m").1, c'.id ≠ clientB.id) ∧
    clientC ∈ (broadcastToQuiz demoClients "g1" "m").1 :=
  ⟨by decide, by decide, by decide, by decide, by decide, by decide,
   (broadcast_fanout demoClients "g1" "m" (by decide) clientA (by decide)).1
     (by decide) (by decide),
   (broadcast_fanout demoClients "g1" "m" (by decide) clientB (by decide)).2.2
     (by decide) (by decide),
   ((broadcast_fanout demoClients "g1" "m" (by decide) clientC (by decide)).2.1
     (by decide)).1⟩

theorem statusRank_le_two (s : QuizStatus) : statusRank s ≤ 2 := by
  cases s <;> simp [statusRank]

theorem forall₂_map_self {α : Type} (r : α → α → Prop) (f : α → α) :
    ∀ l : List α, (∀ a ∈ l, r a (f a)) → List.Forall₂ r l (l.map f) := by
  intro l
  induction l with
  | nil =>
    intro
    exact List.Forall₂.nil
  | cons a t ih =>
    intro h
    exact List.Forall₂.cons (h a (List.mem_cons_self a t))
      (ih fun b hb => h b (List.mem_cons_of_mem a hb))

theorem findQuiz_unique {quizzes : List Quiz} {quizID : String} {quiz : Quiz}
    (hnodup : (quizzes.map Quiz.id).Nodup)
    (hf : findQuiz quizzes quizID = some quiz) :
    ∀ q ∈ quizzes, q.id = quizID → q = quiz := by
  intro q hq hid
  apply List.inj_on_of_nodup_map hnodup hq (findQuiz_mem hf)
  rw [hid, findQuiz_id hf]

theorem startQuiz_ok_inv {quizzes : List Quiz} {quizID : String} {now : Nat}
    {st' : List Quiz} (h : startQuiz quizzes quizID now = Except.ok st') :
    ∃ quiz, findQuiz quizzes quizID = some quiz ∧
      quiz.status = QuizStatus.waiting ∧
      st' = quizzes.map fun q => if q.id == quizID then
        ({ quiz with status := QuizStatus.active, startedAt := some now }) else q := by
  cases hf : findQuiz quizzes quizID with
  | none => simp [startQuiz, hf] at h
  | some quiz =>
    by_cases hw : quiz.status = QuizStatus.waiting
    · refine ⟨quiz, rfl, hw, ?_⟩
      simp only [startQuiz, hf, hw, ne_eq, not_true_eq_false, if_false,
        Except.ok.injEq] at h
      exact h.symm
    · simp [startQuiz, hf, hw] at h

theorem endQuiz_ok_inv {quizzes : List Quiz} {quizID : String} {now : Nat}
    {st' : List Quiz} (h : endQuiz quizzes quizID now = Except.ok st') :
    ∃ quiz, findQuiz quizzes quizID = some quiz ∧
      st' = quizzes.map fun q => if q.id == quizID then
        ({ quiz with status := QuizStatus.ended, endedAt := some now }) else q := by
  cases hf : findQuiz quizzes quizID with
  | none => simp [endQuiz, hf] at h
  | some quiz =>
    refine ⟨quiz, rfl, ?_⟩
    simp only [endQuiz, hf, Except.ok.injEq] at h
    exact h.symm

/-- C7 counterexample: EndQuiz on a Waiting quiz succeeds and moves the
status directly from Waiting to Ended, skipping Active — the transition the
claim says no operation performs. -/
theorem endQuiz_skips_active :
    quizAB.status = QuizStatus.waiting ∧
    endQuiz [quizAB] "g1" 5 =
      Except.ok [{ quizAB with status := QuizStatus.ended, endedAt := some 5 }] :=
  ⟨rfl, by decide⟩

/-- C7 amended: StartQuiz fails with the invalid-state error whenever the
current status is not Waiting, and both StartQuiz and EndQuiz only ever raise
the status rank (Waiting < Active < Ended) — no reversal is possible; but
EndQuiz is unconditional, so a Waiting quiz can move directly to Ended,
skipping Active. -/
theorem quiz_status_monotone (quizzes : List Quiz) (quizID : String) (now : Nat)
    (hnodup : (quizzes.map Quiz.id).Nodup) :
    (∀ quiz, findQuiz quizzes quizID = some quiz →
        quiz.status ≠ QuizStatus.waiting →
        startQuiz quizzes quizID now = Except.error StartError.invalidState) ∧
    (∀ st', startQuiz quizzes quizID now = Except.ok st' →
        List.Forall₂ (fun q q' => statusRank q.status ≤ statusRank q'.status)
          quizzes st') ∧
    (∀ st', endQuiz quizzes quizID now = Except.ok st' →
        List.Forall₂ (fun q q' => statusRank q.status ≤ statusRank q'.status)
          quizzes st') := by
  refine ⟨?_, ?_, ?_⟩
  · intro quiz hf hw
    simp [startQuiz, hf, hw]
  · intro st' h
    obtain ⟨quiz, hf, hw, hst⟩ := startQuiz_ok_inv h
    subst hst
    apply forall₂_map_self
    intro q hq
    by_cases hid : q.id = quizID
    · have hquiz : q = quiz := findQuiz_unique hnodup hf q hq hid
      simp [hid, hquiz, hw, statusRank]
    · simp [hid]
  · intro st' h
    obtain ⟨quiz, hf, hst⟩ := endQuiz_ok_inv h
    subst hst
    apply forall₂_map_self
    intro q hq
    by_cases hid : q.id = quizID
    · simp only [hid, beq_self_eq_true, if_true]
      exact statusRank_le_two q.status
    · simp [hid]

theorem quiz_status_monotone_witness :
    (demoState.map Quiz.id).Nodup ∧
    findQuiz demoState "g1" = some quizAnswered ∧
    quizAnswered.status ≠ QuizStatus.waiting ∧
    startQuiz demoState "g1" 5 = Except.error StartError.invalidState ∧
    List.Forall₂ (fun q q' => statusRank q.status ≤ statusRank q'.status)
      demoState [{ quizAnswered with status := QuizStatus.ended, endedAt := some 5 }] :=
  ⟨by decide, by decide, by decide,
   (quiz_status_monotone demoState "g1" 5 (by decide)).1 quizAnswered
     (by decide) (by decide),
   (quiz_status_monotone demoState "g1" 5 (by decide)).2.2
     [{ quizAnswered with status := QuizStatus.ended, endedAt := some 5 }]
     (by decide)⟩

/-- C8: every event received by the relay's subscription loop is handed to
broadcastToQuiz, which ends by publishing the same event back to the shared
quiz topic — so a received event always causes a further publish, contrary
to the local-only requirement.  Stated in general and evaluated at a
concrete received message (delivered locally AND re-published to the very
channel it arrived on). -/
theorem relay_republishes_received_event :
    (∀ (clients : List Client) (channel payload : String),
        (handleRelayMessage clients channel payload).2 =
          [("quiz:" ++ channel.drop 5, payload)]) ∧
    (handleRelayMessage demoClients "quiz:g1" "evt").2 = [("quiz:g1", "evt")] ∧
    ({ clientA with sendQueue := clientA.sendQueue ++ ["evt"] } ∈
      (handleRelayMessage demoClients "quiz:g1" "evt").1) :=
  ⟨fun _ _ _ => rfl, by decide, by decide⟩

theorem setQuiz_mem (quizzes : List Quiz) (quiz : Quiz) :
    quiz ∈ setQuiz quizzes quiz := by
  unfold setQuiz
  by_cases h : quizzes.any fun q => q.id == quiz.id
  · rw [if_pos h]
    rcases List.any_eq_true.mp h with ⟨q, hq, hid⟩
    exact List.mem_map.mpr ⟨q, hq, by simp [hid]⟩
  · rw [if_neg h]
    simp

/-- C9 counterexample: when the durable write fails, CreateQuiz returns the
error — no usable quiz is returned and nothing is added to the in-process
registry. -/
theorem createQuiz_fails_on_save_error :
    createQuiz [] "Geo" "g7" 0 false =
      Except.error "failed to save quiz to Redis" := rfl

/-- C9 amended: CreateQuiz returns a registered fresh Waiting quiz with the
fixed question set exactly when the save reports success (which includes the
silent no-op when Redis is unavailable); when the durable write fails it
returns the error and the quiz is not added to the registry — the failure is
fatal for CreateQuiz, not a warning. -/
theorem createQuiz_cases (quizzes : List Quiz) (title quizID : String) (now : Nat)
    (saveOk : Bool) :
    (saveOk = false →
        createQuiz quizzes title quizID now saveOk =
          Except.error "failed to save quiz to Redis") ∧
    (saveOk = true →
        ∃ quiz, createQuiz quizzes title quizID now saveOk =
            Except.ok (setQuiz quizzes quiz, quiz) ∧
          quiz.id = quizID ∧ quiz.title = title ∧
          quiz.questions = getSampleQuestions ∧
          quiz.status = QuizStatus.waiting ∧ quiz.participants = [] ∧
          quiz ∈ setQuiz quizzes quiz) := by
  constructor
  · intro h
    subst h
    rfl
  · intro h
    subst h
    exact ⟨_, rfl, rfl, rfl, rfl, rfl, rfl, setQuiz_mem _ _⟩

theorem createQuiz_cases_witness :
    createQuiz [] "Geo" "g7" 0 false =
      Except.error "failed to save quiz to Redis" ∧
    ∃ quiz, createQuiz [] "Geo" "g7" 0 true =
        Except.ok (setQuiz [] quiz, quiz) ∧
      quiz.id = "g7" ∧ quiz.title = "Geo" ∧
      quiz.questions = getSampleQuestions ∧
      quiz.status = QuizStatus.waiting ∧ quiz.participants = [] ∧
      quiz ∈ setQuiz [] quiz :=
  ⟨(createQuiz_cases [] "Geo" "g7" 0 false).1 rfl,
   (createQuiz_cases [] "Geo" "g7" 0 true).2 rfl⟩

end BtaskeeQuiz
